import Mathlib

/-!
Shallow embedding of `src/v2/embeddings/openai.rs` (the OpenAI embedding provider of
chromadb-async-rs) and proofs about its `embed` operation.

The HTTP layer is modelled by an explicit oracle (`Service`): a function from the index of
the network call and the request actually sent to the observed outcome of that call
(transport failure, or a response with a status code and an optionally JSON-decodable
body).  `embed` is translated into a pure function of the provider, the oracle and the
document list, returning both its outcome and the ordered trace of requests it sent.
Rust panics (the `expect` in `OpenAIConfig::default`, the `data[0]` indexing in `embed`)
are modelled by an explicit `panic` outcome.  JSON numbers are modelled as rationals:
no arithmetic is ever performed on embedding values, only transport and extraction.
-/

/-- JSON values, as carried by `serde_json::Value`.  Numbers are modelled as rationals. -/
inductive Json where
  | null : Json
  | bool : Bool → Json
  | num : Rat → Json
  | str : String → Json
  | arr : List Json → Json
  | obj : List (String × Json) → Json

/-- Modelled from the spec: `crate::v2::commons::Embedding` is not under `src/`; section 3
of the spec defines an Embedding as an ordered sequence of floating-point numbers (and
`embed` pushes `Vec<f32>` values into `Vec<Embedding>`, so the two coincide).  The numeric
values are modelled as rationals, since the code only moves them and never computes. -/
abbrev Embedding := List Rat

/-- Mirrors `struct EmbeddingData { embedding: Vec<f32> }`. -/
structure EmbeddingData where
  embedding : List Rat
deriving DecidableEq

/-- Mirrors `struct EmbeddingRequest { model: String, input: String }`. -/
structure EmbeddingRequest where
  model : String
  input : String
deriving DecidableEq

/-- Mirrors `struct EmbeddingResponse { data: Vec<EmbeddingData> }`. -/
structure EmbeddingResponse where
  data : List EmbeddingData
deriving DecidableEq

/-- Mirrors `struct OpenAIConfig { api_endpoint, api_key, model }`. -/
structure OpenAIConfig where
  api_endpoint : String
  api_key : String
  model : String
deriving DecidableEq

/-- Mirrors `struct OpenAIEmbeddings { config: OpenAIConfig }`. -/
structure OpenAIEmbeddings where
  config : OpenAIConfig
deriving DecidableEq

def OPENAI_EMBEDDINGS_ENDPOINT : String := "https://api.openai.com/v1/embeddings"

def OPENAI_EMBEDDINGS_MODEL : String := "text-embedding-3-small"

/-- Body of an HTTP request under construction: either raw bytes (`RequestBuilder::body`)
or the serialized-JSON bytes installed by `RequestBuilder::json`. -/
inductive Body where
  | raw : String → Body
  | jsonBody : Json → Body

/-- A `reqwest::RequestBuilder` / the request finally sent: target URL, header list in
insertion order, and the body, if one was installed. -/
structure RequestBuilder where
  url : String
  headers : List (String × String)
  body : Option Body

/-- Mirrors `reqwest::Client::post(url)`: a fresh builder with no headers and no body. -/
def Client.post (url : String) : RequestBuilder :=
  { url := url, headers := [], body := none }

/-- Mirrors `RequestBuilder::body(b)`: installs a raw body, replacing any previous body. -/
def RequestBuilder.withBody (b : RequestBuilder) (s : String) : RequestBuilder :=
  { b with body := some (Body.raw s) }

/-- Mirrors `RequestBuilder::header(k, v)`: appends a header. -/
def RequestBuilder.header (b : RequestBuilder) (k v : String) : RequestBuilder :=
  { b with headers := b.headers ++ [(k, v)] }

/-- Mirrors `RequestBuilder::json(&v)`: serializes `v`, REPLACES any previously installed
body with the JSON bytes (`*req.body_mut() = Some(body)` in reqwest), and adds a
`Content-Type: application/json` header only if none is present yet. -/
def RequestBuilder.json (b : RequestBuilder) (j : Json) : RequestBuilder :=
  { b with
    headers :=
      if (b.headers.lookup "Content-Type").isSome then b.headers
      else b.headers ++ [("Content-Type", "application/json")],
    body := some (Body.jsonBody j) }

/-- Outcome of one `send()` as observed by the client: a transport-level failure, or a
response with an HTTP status code and a body (`none` when the body is not decodable as
JSON, so that `res.json()` fails). -/
inductive SendResult where
  | fail : String → SendResult
  | resp : Nat → Option Json → SendResult

/-- The network oracle: the outcome of the `k`-th network call of a run, given the request
sent.  Indexing by `k` lets distinct calls that send equal requests answer differently. -/
abbrev Service := Nat → RequestBuilder → SendResult

/-- The distinct shapes of `anyhow::Error` that `embed`/`post` can return, preserving the
data each underlying error carries (a `reqwest` status error carries the URL and status;
a `serde_json` error carries a message; none of them carries a document index). -/
inductive EmbedError where
  | transport : String → EmbedError
  | status : String → Nat → EmbedError
  | decode : String → EmbedError
  | parse : String → EmbedError
deriving DecidableEq

/-- Outcome of running a fallible, possibly panicking Rust computation. -/
inductive RunResult (α : Type) where
  | ok : α → RunResult α
  | err : EmbedError → RunResult α
  | panic : String → RunResult α
deriving DecidableEq

/-- The panic message of indexing `data[0]` on an empty `Vec`. -/
def oobMsg : String := "index out of bounds: the len is 0 but the index is 0"

/-- Mirrors `serde_json::to_value` / the `Serialize` derive on `EmbeddingRequest`:
a two-field JSON object, fields in declaration order. -/
def EmbeddingRequest.toJson (r : EmbeddingRequest) : Json :=
  Json.obj [("model", Json.str r.model), ("input", Json.str r.input)]

/-- Mirrors deserializing one element of `data` into `EmbeddingData`: an object with an
`embedding` field holding an array of numbers (unknown fields are ignored by serde's
default). -/
def parseEmbeddingData : Json → Except String EmbeddingData
  | Json.obj fields =>
    match fields.lookup "embedding" with
    | some (Json.arr xs) =>
      (xs.mapM (fun x =>
        match x with
        | Json.num q => Except.ok q
        | _ => Except.error "invalid type: expected f32")).map EmbeddingData.mk
    | some _ => Except.error "invalid type: expected a sequence"
    | none => Except.error "missing field embedding"
  | _ => Except.error "invalid type: expected struct EmbeddingData"

/-- Mirrors `serde_json::from_value::<EmbeddingResponse>`: an object with a `data` field
holding an array of `EmbeddingData` objects. -/
def parseEmbeddingResponse : Json → Except String EmbeddingResponse
  | Json.obj fields =>
    match fields.lookup "data" with
    | some (Json.arr xs) => (xs.mapM parseEmbeddingData).map EmbeddingResponse.mk
    | some _ => Except.error "invalid type: expected a sequence"
    | none => Except.error "missing field data"
  | _ => Except.error "invalid type: expected struct EmbeddingResponse"

/-- Mirrors `OpenAIConfig::default()`.  The process environment is passed explicitly;
`std::env::var("OPENAI_API_KEY").expect(..)` panics when the variable is unset (the
`expect` message, with `VarError::NotPresent` appended by `expect`'s formatting).
Construction sends no HTTP request, hence the always-empty request trace. -/
def OpenAIConfig.default (env : String → Option String) :
    RunResult OpenAIConfig × List RequestBuilder :=
  match env "OPENAI_API_KEY" with
  | some key =>
    (RunResult.ok
      { api_endpoint := OPENAI_EMBEDDINGS_ENDPOINT
        api_key := key
        model := OPENAI_EMBEDDINGS_MODEL }, [])
  | none => (RunResult.panic "OPENAI_API_KEY env is not set: NotPresent", [])

/-- Mirrors `OpenAIEmbeddings::new(config)`. -/
def OpenAIEmbeddings.new (config : OpenAIConfig) : OpenAIEmbeddings :=
  { config := config }

/-- The request-builder chain of `OpenAIEmbeddings::post`, applied to the serialized
body: `client.post(endpoint).body("the exact body that is sent")
.header("Content-Type", "application/json")
.header("Authorization", format!("Bearer {}", api_key)).json(&json_body)`. -/
def OpenAIEmbeddings.buildReq (p : OpenAIEmbeddings) (jsonBody : Json) : RequestBuilder :=
  ((((Client.post p.config.api_endpoint).withBody
      "the exact body that is sent").header "Content-Type" "application/json").header
      "Authorization" ("Bearer " ++ p.config.api_key)).json jsonBody

/-- Mirrors `OpenAIEmbeddings::post`: build the request, send it (the `k`-th call of the
run), then `error_for_status()` — which errors exactly on client-error (400..=499) and
server-error (500..=599) statuses — and finally `res.json()`.  Returns the outcome
together with the request that was sent. -/
def OpenAIEmbeddings.post (p : OpenAIEmbeddings) (svc : Service) (k : Nat)
    (jsonBody : Json) : Except EmbedError Json × RequestBuilder :=
  match svc k (p.buildReq jsonBody) with
  | SendResult.fail msg => (Except.error (EmbedError.transport msg), p.buildReq jsonBody)
  | SendResult.resp st body =>
    if 400 ≤ st ∧ st ≤ 599 then
      (Except.error (EmbedError.status p.config.api_endpoint st), p.buildReq jsonBody)
    else
      match body with
      | none =>
        (Except.error (EmbedError.decode "error decoding response body"),
          p.buildReq jsonBody)
      | some j => (Except.ok j, p.buildReq jsonBody)

/-- The loop body of `OpenAIEmbeddings::embed`, one document at a time: build the
`EmbeddingRequest`, `post` it (`?` propagates the error), `serde_json::from_value` the
result (`?` propagates), then push `body.data[0].embedding` — which panics when `data` is
empty.  `k` counts the network calls already made; the second component is the ordered
trace of requests sent. -/
def OpenAIEmbeddings.embedGo (p : OpenAIEmbeddings) (svc : Service) :
    Nat → List String → RunResult (List Embedding) × List RequestBuilder
  | _, [] => (RunResult.ok [], [])
  | k, doc :: rest =>
    match p.post svc k (EmbeddingRequest.toJson ⟨p.config.model, doc⟩) with
    | (Except.error e, sent) => (RunResult.err e, [sent])
    | (Except.ok j, sent) =>
      match parseEmbeddingResponse j with
      | Except.error msg => (RunResult.err (EmbedError.parse msg), [sent])
      | Except.ok body =>
        match body.data with
        | [] => (RunResult.panic oobMsg, [sent])
        | d :: _ =>
          match p.embedGo svc (k + 1) rest with
          | (RunResult.ok es, tr) => (RunResult.ok (d.embedding :: es), sent :: tr)
          | (RunResult.err e, tr) => (RunResult.err e, sent :: tr)
          | (RunResult.panic m, tr) => (RunResult.panic m, sent :: tr)

/-- Mirrors `OpenAIEmbeddings::embed(docs)`: outcome plus the trace of requests sent. -/
def OpenAIEmbeddings.embed (p : OpenAIEmbeddings) (svc : Service) (docs : List String) :
    RunResult (List Embedding) × List RequestBuilder :=
  p.embedGo svc 0 docs

/-- The loop of `embed` with the provider state threaded explicitly: `embed` takes
`&self`, so each iteration runs against the provider left by the previous one, and no
statement of the loop rebinds or assigns to it.  The final component is the provider
as it stands when the call returns. -/
def OpenAIEmbeddings.embedGoSt (svc : Service) :
    OpenAIEmbeddings → Nat → List String →
      (RunResult (List Embedding) × List RequestBuilder) × OpenAIEmbeddings
  | p, _, [] => ((RunResult.ok [], []), p)
  | p, k, doc :: rest =>
    match p.post svc k (EmbeddingRequest.toJson ⟨p.config.model, doc⟩) with
    | (Except.error e, sent) => ((RunResult.err e, [sent]), p)
    | (Except.ok j, sent) =>
      match parseEmbeddingResponse j with
      | Except.error msg => ((RunResult.err (EmbedError.parse msg), [sent]), p)
      | Except.ok body =>
        match body.data with
        | [] => ((RunResult.panic oobMsg, [sent]), p)
        | d :: _ =>
          match OpenAIEmbeddings.embedGoSt svc p (k + 1) rest with
          | ((RunResult.ok es, tr), p2) => ((RunResult.ok (d.embedding :: es), sent :: tr), p2)
          | ((RunResult.err e, tr), p2) => ((RunResult.err e, sent :: tr), p2)
          | ((RunResult.panic m, tr), p2) => ((RunResult.panic m, sent :: tr), p2)

/-- `embed` with the provider state it leaves behind. -/
def OpenAIEmbeddings.embedWithSelf (p : OpenAIEmbeddings) (svc : Service)
    (docs : List String) :
    (RunResult (List Embedding) × List RequestBuilder) × OpenAIEmbeddings :=
  OpenAIEmbeddings.embedGoSt svc p 0 docs

/-- The request `embed` sends for document `doc`: the builder chain of `post` applied to
the serialized `EmbeddingRequest { model: config.model, input: doc }`. -/
def OpenAIEmbeddings.sentFor (p : OpenAIEmbeddings) (doc : String) : RequestBuilder :=
  p.buildReq (EmbeddingRequest.toJson ⟨p.config.model, doc⟩)

/-- The response the oracle gives to the call `embed` makes for `doc` as call `k`. -/
def OpenAIEmbeddings.respOf (p : OpenAIEmbeddings) (svc : Service) (k : Nat)
    (doc : String) : SendResult :=
  svc k (p.sentFor doc)

/-- The parsed `EmbeddingResponse` of call `k` for `doc`, when the call reaches and
passes parsing; `none` when the call fails at transport, status or JSON decoding,
or when `from_value` fails. -/
def OpenAIEmbeddings.parsedOf (p : OpenAIEmbeddings) (svc : Service) (k : Nat)
    (doc : String) : Option EmbeddingResponse :=
  match (p.post svc k (EmbeddingRequest.toJson ⟨p.config.model, doc⟩)).1 with
  | Except.error _ => none
  | Except.ok j => (parseEmbeddingResponse j).toOption

/-- The full outcome of the loop body for one document: the error propagated by `?`,
the panic of `data[0]` on an empty `data`, or the embedding pushed into the result. -/
def OpenAIEmbeddings.callOutcome (p : OpenAIEmbeddings) (svc : Service) (k : Nat)
    (doc : String) : RunResult (List Rat) :=
  match (p.post svc k (EmbeddingRequest.toJson ⟨p.config.model, doc⟩)).1 with
  | Except.error e => RunResult.err e
  | Except.ok j =>
    match parseEmbeddingResponse j with
    | Except.error msg => RunResult.err (EmbedError.parse msg)
    | Except.ok body =>
      match body.data with
      | [] => RunResult.panic oobMsg
      | d :: _ => RunResult.ok d.embedding

/-- The embedding `embed` extracts from the response to call `k` for `doc`: the
`embedding` of the first entry of the parsed `data` (defaulting to `[]` outside the
domain where extraction happens). -/
def OpenAIEmbeddings.extractedEmbedding (p : OpenAIEmbeddings) (svc : Service) (k : Nat)
    (doc : String) : List Rat :=
  match p.parsedOf svc k doc with
  | some r =>
    match r.data with
    | d :: _ => d.embedding
    | [] => []
  | none => []

/-- The HTTP request of call `k` for `doc` succeeds (no transport failure, no
client/server error status, body decodes as JSON) and parses into the expected
response shape. -/
def OpenAIEmbeddings.callGood (p : OpenAIEmbeddings) (svc : Service) (k : Nat)
    (doc : String) : Prop :=
  ∃ st j r, p.respOf svc k doc = SendResult.resp st (some j) ∧
    ¬(400 ≤ st ∧ st ≤ 599) ∧ parseEmbeddingResponse j = Except.ok r

/-- The call succeeds, parses, and its parsed `data` sequence is non-empty. -/
def OpenAIEmbeddings.callGoodNonempty (p : OpenAIEmbeddings) (svc : Service) (k : Nat)
    (doc : String) : Prop :=
  ∃ st j r, p.respOf svc k doc = SendResult.resp st (some j) ∧
    ¬(400 ≤ st ∧ st ≤ 599) ∧ parseEmbeddingResponse j = Except.ok r ∧ r.data ≠ []

/-- An HTTP status is a success status (`StatusCode::is_success`: 2xx). -/
def statusSuccess (st : Nat) : Prop := 200 ≤ st ∧ st ≤ 299

/-- A concrete configuration, for evaluating the model on closed inputs. -/
def cfg0 : OpenAIConfig :=
  { api_endpoint := OPENAI_EMBEDDINGS_ENDPOINT
    api_key := "k0"
    model := OPENAI_EMBEDDINGS_MODEL }

def p0 : OpenAIEmbeddings := OpenAIEmbeddings.new cfg0

/-- A well-formed response body carrying the single embedding `[1, 2]`. -/
def goodBody : Json :=
  Json.obj
    [("data", Json.arr [Json.obj [("embedding", Json.arr [Json.num 1, Json.num 2])]])]

/-- A well-formed response body whose `data` sequence is empty. -/
def emptyDataBody : Json := Json.obj [("data", Json.arr [])]

/-- A response body whose sole `data` entry is missing its `embedding` field. -/
def noEmbeddingFieldBody : Json :=
  Json.obj [("data", Json.arr [Json.obj [("vector", Json.arr [])]])]

/-- An oracle that answers every call with HTTP 200 and `goodBody`. -/
def svcGood : Service := fun _ _ => SendResult.resp 200 (some goodBody)

/-- An oracle that answers every call with HTTP 200 and an empty `data` sequence. -/
def svcEmptyData : Service := fun _ _ => SendResult.resp 200 (some emptyDataBody)

/-- An oracle that answers every call with HTTP 304 (non-success, non-error) and
`goodBody`. -/
def svc304 : Service := fun _ _ => SendResult.resp 304 (some goodBody)

/-- An oracle that answers every call with HTTP 500. -/
def svcFailAt0 : Service := fun _ _ => SendResult.resp 500 none

/-- An oracle whose first call succeeds with `goodBody` and whose later calls answer
HTTP 500. -/
def svcFailAt1 : Service := fun k _ =>
  if k = 0 then SendResult.resp 200 (some goodBody) else SendResult.resp 500 none

/-- An oracle that answers every call with HTTP 200 and a `data` entry that has no
`embedding` field. -/
def svcNoField : Service := fun _ _ => SendResult.resp 200 (some noEmbeddingFieldBody)

/-- An environment in which no variable is set. -/
def envEmpty : String → Option String := fun _ => none

theorem post_snd (p : OpenAIEmbeddings) (svc : Service) (k : Nat) (j : Json) :
    (p.post svc k j).2 = p.buildReq j := by
  unfold OpenAIEmbeddings.post
  split
  · rfl
  · split
    · rfl
    · split <;> rfl

theorem callOutcome_eq (p : OpenAIEmbeddings) (svc : Service) (k : Nat) (doc : String) :
    p.callOutcome svc k doc =
      match p.respOf svc k doc with
      | SendResult.fail msg => RunResult.err (EmbedError.transport msg)
      | SendResult.resp st none =>
        if 400 ≤ st ∧ st ≤ 599 then
          RunResult.err (EmbedError.status p.config.api_endpoint st)
        else RunResult.err (EmbedError.decode "error decoding response body")
      | SendResult.resp st (some j) =>
        if 400 ≤ st ∧ st ≤ 599 then
          RunResult.err (EmbedError.status p.config.api_endpoint st)
        else
          match parseEmbeddingResponse j with
          | Except.error msg => RunResult.err (EmbedError.parse msg)
          | Except.ok body =>
            match body.data with
            | [] => RunResult.panic oobMsg
            | d :: _ => RunResult.ok d.embedding := by
  unfold OpenAIEmbeddings.callOutcome OpenAIEmbeddings.post OpenAIEmbeddings.respOf
    OpenAIEmbeddings.sentFor
  cases svc k (p.buildReq (EmbeddingRequest.toJson ⟨p.config.model, doc⟩)) with
  | fail msg => rfl
  | resp st body =>
    by_cases h : 400 ≤ st ∧ st ≤ 599
    · cases body <;> simp only [if_pos h]
    · cases body <;> simp only [if_neg h]

theorem parsedOf_eq (p : OpenAIEmbeddings) (svc : Service) (k : Nat) (doc : String) :
    p.parsedOf svc k doc =
      match p.respOf svc k doc with
      | SendResult.fail _ => none
      | SendResult.resp _ none => none
      | SendResult.resp st (some j) =>
        if 400 ≤ st ∧ st ≤ 599 then none else (parseEmbeddingResponse j).toOption := by
  unfold OpenAIEmbeddings.parsedOf OpenAIEmbeddings.post OpenAIEmbeddings.respOf
    OpenAIEmbeddings.sentFor
  cases svc k (p.buildReq (EmbeddingRequest.toJson ⟨p.config.model, doc⟩)) with
  | fail msg => rfl
  | resp st body =>
    by_cases h : 400 ≤ st ∧ st ≤ 599
    · cases body <;> simp only [if_pos h]
    · cases body <;> simp only [if_neg h]

theorem callOutcome_of_goodNonempty (p : OpenAIEmbeddings) (svc : Service) (k : Nat)
    (doc : String) (h : p.callGoodNonempty svc k doc) :
    p.callOutcome svc k doc = RunResult.ok (p.extractedEmbedding svc k doc) := by
  obtain ⟨st, j, r, hresp, hst, hparse, hne⟩ := h
  rw [callOutcome_eq, hresp]
  unfold OpenAIEmbeddings.extractedEmbedding
  rw [parsedOf_eq, hresp]
  simp only [if_neg hst, hparse, Except.toOption]
  cases hd : r.data with
  | nil => exact absurd hd hne
  | cons d ds => rfl

theorem callOutcome_ok_goodNonempty (p : OpenAIEmbeddings) (svc : Service) (k : Nat)
    (doc : String) (emb : List Rat)
    (h : p.callOutcome svc k doc = RunResult.ok emb) :
    p.callGoodNonempty svc k doc := by
  rw [callOutcome_eq] at h
  cases hresp : p.respOf svc k doc with
  | fail msg => rw [hresp] at h; simp at h
  | resp st body =>
    rw [hresp] at h
    cases body with
    | none =>
      by_cases hst : 400 ≤ st ∧ st ≤ 599 <;> simp only [if_pos, if_neg, hst] at h <;>
        simp at h
    | some j =>
      by_cases hst : 400 ≤ st ∧ st ≤ 599
      · simp only [if_pos hst] at h; simp at h
      · simp only [if_neg hst] at h
        cases hp : parseEmbeddingResponse j with
        | error msg => rw [hp] at h; simp at h
        | ok r =>
          rw [hp] at h
          dsimp only at h
          cases hd : r.data with
          | nil => rw [hd] at h; simp at h
          | cons d ds =>
            exact ⟨st, j, r, hresp, hst, hp, by rw [hd]; simp⟩

theorem callOutcome_status (p : OpenAIEmbeddings) (svc : Service) (k : Nat) (doc : String)
    (st : Nat) (body : Option Json)
    (hresp : p.respOf svc k doc = SendResult.resp st body)
    (hst : 400 ≤ st ∧ st ≤ 599) :
    p.callOutcome svc k doc = RunResult.err (EmbedError.status p.config.api_endpoint st) := by
  rw [callOutcome_eq, hresp]
  cases body <;> simp only [if_pos hst]

theorem callOutcome_parse_err (p : OpenAIEmbeddings) (svc : Service) (k : Nat)
    (doc : String) (st : Nat) (j : Json) (msg : String)
    (hresp : p.respOf svc k doc = SendResult.resp st (some j))
    (hst : ¬(400 ≤ st ∧ st ≤ 599))
    (hparse : parseEmbeddingResponse j = Except.error msg) :
    p.callOutcome svc k doc = RunResult.err (EmbedError.parse msg) := by
  rw [callOutcome_eq, hresp]
  simp only [if_neg hst, hparse]

theorem callOutcome_panic_src (p : OpenAIEmbeddings) (svc : Service) (k : Nat)
    (doc : String) (m : String) (h : p.callOutcome svc k doc = RunResult.panic m) :
    m = oobMsg ∧ ∃ r, p.parsedOf svc k doc = some r ∧ r.data = [] := by
  rw [callOutcome_eq] at h
  cases hresp : p.respOf svc k doc with
  | fail msg => rw [hresp] at h; simp at h
  | resp st body =>
    rw [hresp] at h
    cases body with
    | none =>
      by_cases hst : 400 ≤ st ∧ st ≤ 599 <;> simp only [if_pos, if_neg, hst] at h <;>
        simp at h
    | some j =>
      by_cases hst : 400 ≤ st ∧ st ≤ 599
      · simp only [if_pos hst] at h; simp at h
      · simp only [if_neg hst] at h
        cases hp : parseEmbeddingResponse j with
        | error msg => rw [hp] at h; simp at h
        | ok r =>
          rw [hp] at h
          dsimp only at h
          cases hd : r.data with
          | nil =>
            rw [hd] at h
            refine ⟨by simpa using h.symm, r, ?_, hd⟩
            rw [parsedOf_eq, hresp]
            simp only [if_neg hst, hp, Except.toOption]
          | cons d ds => rw [hd] at h; simp at h

theorem callOutcome_of_parsed_nil (p : OpenAIEmbeddings) (svc : Service) (k : Nat)
    (doc : String) (r : EmbeddingResponse)
    (hr : p.parsedOf svc k doc = some r) (hd : r.data = []) :
    p.callOutcome svc k doc = RunResult.panic oobMsg := by
  rw [parsedOf_eq] at hr
  rw [callOutcome_eq]
  cases hresp : p.respOf svc k doc with
  | fail msg => rw [hresp] at hr; simp at hr
  | resp st body =>
    rw [hresp] at hr
    cases body with
    | none => simp at hr
    | some j =>
      dsimp only at hr ⊢
      by_cases hst : 400 ≤ st ∧ st ≤ 599
      · rw [if_pos hst] at hr; simp at hr
      · rw [if_neg hst] at hr
        rw [if_neg hst]
        cases hp : parseEmbeddingResponse j with
        | error msg => rw [hp] at hr; simp [Except.toOption] at hr
        | ok r2 =>
          rw [hp] at hr
          simp only [Except.toOption, Option.some.injEq] at hr
          dsimp only
          subst hr
          rw [hd]

theorem embedGo_cons (p : OpenAIEmbeddings) (svc : Service) (k : Nat) (doc : String)
    (rest : List String) :
    p.embedGo svc k (doc :: rest) =
      match p.callOutcome svc k doc with
      | RunResult.err e => (RunResult.err e, [p.sentFor doc])
      | RunResult.panic m => (RunResult.panic m, [p.sentFor doc])
      | RunResult.ok emb =>
        match p.embedGo svc (k + 1) rest with
        | (RunResult.ok es, tr) => (RunResult.ok (emb :: es), p.sentFor doc :: tr)
        | (RunResult.err e, tr) => (RunResult.err e, p.sentFor doc :: tr)
        | (RunResult.panic m, tr) => (RunResult.panic m, p.sentFor doc :: tr) := by
  have hsnd := post_snd p svc k (EmbeddingRequest.toJson ⟨p.config.model, doc⟩)
  simp only [OpenAIEmbeddings.embedGo, OpenAIEmbeddings.callOutcome]
  cases hp : p.post svc k (EmbeddingRequest.toJson ⟨p.config.model, doc⟩) with
  | mk r sent =>
    rw [hp] at hsnd
    dsimp only at hsnd
    subst hsnd
    cases r with
    | error e => rfl
    | ok j =>
      dsimp only
      cases parseEmbeddingResponse j with
      | error msg => rfl
      | ok body =>
        dsimp only
        cases body.data with
        | nil => rfl
        | cons d ds =>
          dsimp only
          cases p.embedGo svc (k + 1) rest with
          | mk res tr => cases res <;> rfl

theorem embedGo_all_good (p : OpenAIEmbeddings) (svc : Service) (docs : List String)
    (k : Nat)
    (h : ∀ i (hi : i < docs.length), p.callGoodNonempty svc (k + i) (docs.get ⟨i, hi⟩)) :
    ∃ L : List Embedding,
      p.embedGo svc k docs = (RunResult.ok L, docs.map p.sentFor) ∧
      L.length = docs.length ∧
      ∀ i (hi : i < docs.length) (hiL : i < L.length),
        L.get ⟨i, hiL⟩ = p.extractedEmbedding svc (k + i) (docs.get ⟨i, hi⟩) := by
  induction docs generalizing k with
  | nil =>
    exact ⟨[], by simp [OpenAIEmbeddings.embedGo], by simp, fun i hi hiL => by simp at hi⟩
  | cons doc rest ih =>
    have h0 : p.callGoodNonempty svc k doc := h 0 (Nat.succ_pos _)
    have hout := callOutcome_of_goodNonempty p svc k doc h0
    obtain ⟨L, hL, hlen, hget⟩ := ih (k + 1) (fun i hi => by
      have hx := h (i + 1) (Nat.succ_lt_succ hi)
      have harith : k + (i + 1) = (k + 1) + i := by omega
      rw [harith] at hx
      exact hx)
    refine ⟨p.extractedEmbedding svc k doc :: L, ?_, ?_, ?_⟩
    · rw [embedGo_cons, hout, hL]
      rfl
    · simpa using hlen
    · intro i hi hiL
      cases i with
      | zero => rfl
      | succ n =>
        have hn : n < rest.length := Nat.lt_of_succ_lt_succ hi
        have hnL : n < L.length := Nat.lt_of_succ_lt_succ hiL
        have hx := hget n hn hnL
        have harith : (k + 1) + n = k + (n + 1) := by omega
        rw [harith] at hx
        exact hx

theorem embedGo_ok_good (p : OpenAIEmbeddings) (svc : Service) (docs : List String)
    (k : Nat) (L : List Embedding) (tr : List RequestBuilder)
    (hok : p.embedGo svc k docs = (RunResult.ok L, tr)) :
    ∀ i (hi : i < docs.length), p.callGoodNonempty svc (k + i) (docs.get ⟨i, hi⟩) := by
  induction docs generalizing k L tr with
  | nil => intro i hi; simp at hi
  | cons doc rest ih =>
    rw [embedGo_cons] at hok
    cases hout : p.callOutcome svc k doc with
    | err e => rw [hout] at hok; simp at hok
    | panic m => rw [hout] at hok; simp at hok
    | ok emb =>
      rw [hout] at hok
      cases hrec : p.embedGo svc (k + 1) rest with
      | mk res tr2 =>
        rw [hrec] at hok
        cases res with
        | err e => simp at hok
        | panic m => simp at hok
        | ok es =>
          intro i hi
          cases i with
          | zero => exact callOutcome_ok_goodNonempty p svc k doc emb hout
          | succ n =>
            have hn : n < rest.length := Nat.lt_of_succ_lt_succ hi
            have hx := ih (k + 1) es tr2 hrec n hn
            have harith : (k + 1) + n = k + (n + 1) := by omega
            rw [harith] at hx
            exact hx

theorem embedGo_err_at (p : OpenAIEmbeddings) (svc : Service) (docs : List String)
    (k n : Nat) (hn : n < docs.length) (e : EmbedError)
    (hprev : ∀ i (hi : i < n),
      p.callGoodNonempty svc (k + i) (docs.get ⟨i, Nat.lt_trans hi hn⟩))
    (hfail : p.callOutcome svc (k + n) (docs.get ⟨n, hn⟩) = RunResult.err e) :
    p.embedGo svc k docs = (RunResult.err e, (docs.take (n + 1)).map p.sentFor) := by
  induction docs generalizing k n with
  | nil => simp at hn
  | cons doc rest ih =>
    cases n with
    | zero =>
      have hf : p.callOutcome svc k doc = RunResult.err e := hfail
      rw [embedGo_cons, hf]
      rfl
    | succ m =>
      have h0 : p.callGoodNonempty svc k doc := hprev 0 (Nat.succ_pos _)
      have hout := callOutcome_of_goodNonempty p svc k doc h0
      have hm : m < rest.length := Nat.lt_of_succ_lt_succ hn
      have hf2 : p.callOutcome svc ((k + 1) + m) (rest.get ⟨m, hm⟩) = RunResult.err e := by
        have harith : (k + 1) + m = k + (m + 1) := by omega
        rw [harith]
        exact hfail
      have hprev2 : ∀ i (hi : i < m),
          p.callGoodNonempty svc ((k + 1) + i) (rest.get ⟨i, Nat.lt_trans hi hm⟩) := by
        intro i hi
        have hx := hprev (i + 1) (Nat.succ_lt_succ hi)
        have harith : k + (i + 1) = (k + 1) + i := by omega
        rw [harith] at hx
        exact hx
      have hrec := ih (k + 1) m hm hprev2 hf2
      rw [embedGo_cons, hout, hrec]
      rfl

theorem embedGo_panic_at (p : OpenAIEmbeddings) (svc : Service) (docs : List String)
    (k n : Nat) (hn : n < docs.length) (m : String)
    (hprev : ∀ i (hi : i < n),
      p.callGoodNonempty svc (k + i) (docs.get ⟨i, Nat.lt_trans hi hn⟩))
    (hfail : p.callOutcome svc (k + n) (docs.get ⟨n, hn⟩) = RunResult.panic m) :
    p.embedGo svc k docs = (RunResult.panic m, (docs.take (n + 1)).map p.sentFor) := by
  induction docs generalizing k n with
  | nil => simp at hn
  | cons doc rest ih =>
    cases n with
    | zero =>
      have hf : p.callOutcome svc k doc = RunResult.panic m := hfail
      rw [embedGo_cons, hf]
      rfl
    | succ m2 =>
      have h0 : p.callGoodNonempty svc k doc := hprev 0 (Nat.succ_pos _)
      have hout := callOutcome_of_goodNonempty p svc k doc h0
      have hm : m2 < rest.length := Nat.lt_of_succ_lt_succ hn
      have hf2 : p.callOutcome svc ((k + 1) + m2) (rest.get ⟨m2, hm⟩) =
          RunResult.panic m := by
        have harith : (k + 1) + m2 = k + (m2 + 1) := by omega
        rw [harith]
        exact hfail
      have hprev2 : ∀ i (hi : i < m2),
          p.callGoodNonempty svc ((k + 1) + i) (rest.get ⟨i, Nat.lt_trans hi hm⟩) := by
        intro i hi
        have hx := hprev (i + 1) (Nat.succ_lt_succ hi)
        have harith : k + (i + 1) = (k + 1) + i := by omega
        rw [harith] at hx
        exact hx
      have hrec := ih (k + 1) m2 hm hprev2 hf2
      rw [embedGo_cons, hout, hrec]
      rfl

theorem embedGo_panic_source (p : OpenAIEmbeddings) (svc : Service) (docs : List String)
    (k : Nat) (m : String) (tr : List RequestBuilder)
    (hpanic : p.embedGo svc k docs = (RunResult.panic m, tr)) :
    m = oobMsg ∧ ∃ i, ∃ hi : i < docs.length, ∃ r,
      p.parsedOf svc (k + i) (docs.get ⟨i, hi⟩) = some r ∧ r.data = [] := by
  induction docs generalizing k tr with
  | nil =>
    have : p.embedGo svc k [] = (RunResult.ok [], []) := rfl
    rw [this] at hpanic
    simp at hpanic
  | cons doc rest ih =>
    rw [embedGo_cons] at hpanic
    cases hout : p.callOutcome svc k doc with
    | err e => rw [hout] at hpanic; simp at hpanic
    | panic m2 =>
      rw [hout] at hpanic
      dsimp only at hpanic
      have hm2 : m2 = m := by
        have := congrArg Prod.fst hpanic
        simpa using this
      subst hm2
      obtain ⟨hmsg, r, hr, hd⟩ := callOutcome_panic_src p svc k doc m2 hout
      exact ⟨hmsg, 0, Nat.succ_pos _, r, hr, hd⟩
    | ok emb =>
      rw [hout] at hpanic
      cases hrec : p.embedGo svc (k + 1) rest with
      | mk res tr2 =>
        rw [hrec] at hpanic
        cases res with
        | ok es => simp at hpanic
        | err e => simp at hpanic
        | panic m2 =>
          dsimp only at hpanic
          have hm2 : m2 = m := by
            have := congrArg Prod.fst hpanic
            simpa using this
          subst hm2
          have hrec2 : p.embedGo svc (k + 1) rest = (RunResult.panic m2, tr2) := hrec
          obtain ⟨hmsg, i, hi, r, hr, hd⟩ := ih (k + 1) tr2 hrec2
          refine ⟨hmsg, i + 1, Nat.succ_lt_succ hi, r, ?_, hd⟩
          have harith : (k + 1) + i = k + (i + 1) := by omega
          rw [harith] at hr
          exact hr

theorem embedGo_trace_take (p : OpenAIEmbeddings) (svc : Service) (docs : List String)
    (k : Nat) :
    (p.embedGo svc k docs).2 =
      (docs.take (p.embedGo svc k docs).2.length).map p.sentFor := by
  induction docs generalizing k with
  | nil => rfl
  | cons doc rest ih =>
    rw [embedGo_cons]
    cases hout : p.callOutcome svc k doc with
    | err e => rfl
    | panic m => rfl
    | ok emb =>
      cases hrec : p.embedGo svc (k + 1) rest with
      | mk res tr2 =>
        have ih2 := ih (k + 1)
        rw [hrec] at ih2
        dsimp only at ih2
        cases res with
        | ok es =>
          dsimp only
          rw [List.length_cons, List.take_succ_cons, List.map_cons, ← ih2]
        | err e =>
          dsimp only
          rw [List.length_cons, List.take_succ_cons, List.map_cons, ← ih2]
        | panic m =>
          dsimp only
          rw [List.length_cons, List.take_succ_cons, List.map_cons, ← ih2]

theorem embedGoSt_eq (p : OpenAIEmbeddings) (svc : Service) (docs : List String)
    (k : Nat) :
    OpenAIEmbeddings.embedGoSt svc p k docs = (p.embedGo svc k docs, p) := by
  induction docs generalizing k with
  | nil => rfl
  | cons doc rest ih =>
    simp only [OpenAIEmbeddings.embedGoSt, OpenAIEmbeddings.embedGo]
    cases hp : p.post svc k (EmbeddingRequest.toJson ⟨p.config.model, doc⟩) with
    | mk r sent =>
      cases r with
      | error e => rfl
      | ok j =>
        dsimp only
        cases parseEmbeddingResponse j with
        | error msg => rfl
        | ok body =>
          dsimp only
          cases body.data with
          | nil => rfl
          | cons d ds =>
            dsimp only
            rw [ih (k + 1)]
            cases hrec : p.embedGo svc (k + 1) rest with
            | mk res tr => cases res <;> rfl

theorem buildReq_spec (p : OpenAIEmbeddings) (j : Json) :
    p.buildReq j =
      { url := p.config.api_endpoint,
        headers := [("Content-Type", "application/json"),
                    ("Authorization", "Bearer " ++ p.config.api_key)],
        body := some (Body.jsonBody j) } := rfl

/-- C5: `embed` applied to the empty document list returns an empty list and performs no
network call (the trace of sent requests is empty). -/
theorem embed_nil (p : OpenAIEmbeddings) (svc : Service) :
    p.embed svc [] = (RunResult.ok [], []) := rfl

/-- C7: constructing the default configuration in an environment where `OPENAI_API_KEY`
is unset fails deterministically (the `expect` panic) at construction time, with no
network request sent. -/
theorem default_config_panics_without_key (env : String → Option String)
    (h : env "OPENAI_API_KEY" = none) :
    OpenAIConfig.default env =
      (RunResult.panic "OPENAI_API_KEY env is not set: NotPresent", []) := by
  unfold OpenAIConfig.default
  rw [h]

/-- Witness for C7 at the environment in which no variable is set. -/
theorem default_config_panics_without_key_witness :
    OpenAIConfig.default envEmpty =
      (RunResult.panic "OPENAI_API_KEY env is not set: NotPresent", []) :=
  default_config_panics_without_key envEmpty rfl

/-- C10: every `embed` call, whether it succeeds, errors or panics, leaves the provider —
and hence its configuration (endpoint, credential, model) — unchanged: the state-threaded
loop returns the provider it was given, and its result agrees with `embed`. -/
theorem embed_preserves_config (p : OpenAIEmbeddings) (svc : Service)
    (docs : List String) :
    (p.embedWithSelf svc docs).2 = p ∧
    (p.embedWithSelf svc docs).2.config = p.config ∧
    (p.embedWithSelf svc docs).1 = p.embed svc docs := by
  have h := embedGoSt_eq p svc docs 0
  unfold OpenAIEmbeddings.embedWithSelf
  rw [h]
  exact ⟨rfl, rfl, rfl⟩

/-- Counterexample to C1 as stated: with a single document, the sole per-document HTTP
request succeeds (status 200) and parses (into `data = []`), yet `embed` does not return
a one-element embedding list — it panics on the `data[0]` index. -/
theorem embed_success_parse_not_sufficient :
    p0.callGood svcEmptyData 0 "a" ∧
    (p0.embed svcEmptyData ["a"]).1 = RunResult.panic oobMsg :=
  ⟨⟨200, emptyDataBody, ⟨[]⟩, rfl, by omega, rfl⟩, rfl⟩

/-- C1 (amended): if every per-document HTTP request succeeds, parses, AND carries at
least one `data` entry, `embed` returns a list of embeddings whose length equals the
number of input documents, with entry `i` being the embedding extracted from the response
to document `i`; otherwise the call fails entirely (error or panic) and no embedding list
is returned. -/
theorem embed_length_order (p : OpenAIEmbeddings) (svc : Service) (docs : List String) :
    ((∀ i (hi : i < docs.length), p.callGoodNonempty svc i (docs.get ⟨i, hi⟩)) →
      ∃ L, (p.embed svc docs).1 = RunResult.ok L ∧ L.length = docs.length ∧
        ∀ i (hi : i < docs.length), ∀ hiL : i < L.length,
          L.get ⟨i, hiL⟩ = p.extractedEmbedding svc i (docs.get ⟨i, hi⟩)) ∧
    ((¬ ∀ i (hi : i < docs.length), p.callGoodNonempty svc i (docs.get ⟨i, hi⟩)) →
      ∀ L, (p.embed svc docs).1 ≠ RunResult.ok L) := by
  constructor
  · intro h
    obtain ⟨L, hL, hlen, hget⟩ := embedGo_all_good p svc docs 0 (fun i hi => by
      rw [Nat.zero_add]
      exact h i hi)
    refine ⟨L, ?_, hlen, ?_⟩
    · show (p.embedGo svc 0 docs).1 = RunResult.ok L
      rw [hL]
    · intro i hi hiL
      have hx := hget i hi hiL
      rw [Nat.zero_add] at hx
      exact hx
  · intro hnot L hok
    apply hnot
    cases hx : p.embedGo svc 0 docs with
    | mk res tr =>
      have hok2 : (p.embedGo svc 0 docs).1 = RunResult.ok L := hok
      rw [hx] at hok2
      dsimp only at hok2
      subst hok2
      intro i hi
      have hx2 := embedGo_ok_good p svc docs 0 L tr hx i hi
      rw [Nat.zero_add] at hx2
      exact hx2

/-- Witness for the amended C1: two documents against an oracle that always answers 200
with one embedding. -/
theorem embed_length_order_witness :
    ∃ L, (p0.embed svcGood ["a", "b"]).1 = RunResult.ok L ∧
      L.length = (["a", "b"] : List String).length ∧
      ∀ i (hi : i < (["a", "b"] : List String).length), ∀ hiL : i < L.length,
        L.get ⟨i, hiL⟩ =
          p0.extractedEmbedding svcGood i ((["a", "b"] : List String).get ⟨i, hi⟩) :=
  (embed_length_order p0 svcGood ["a", "b"]).1 (fun i hi =>
    ⟨200, goodBody, ⟨[⟨[1, 2]⟩]⟩, rfl, by omega, rfl, by simp⟩)

/-- Counterexample to C2 as stated: HTTP 304 is a non-success status
(`StatusCode::is_success` is 2xx-only), yet `error_for_status` — which only errors on
400..=599 — lets it through, and `embed` succeeds when the 304 response carries a
well-formed body.  The claim that every non-success status fails the call is false. -/
theorem embed_non2xx_can_succeed :
    ¬ statusSuccess 304 ∧
    p0.respOf svc304 0 "a" = SendResult.resp 304 (some goodBody) ∧
    (p0.embed svc304 ["a"]).1 = RunResult.ok [[1, 2]] := by
  refine ⟨?_, rfl, rfl⟩
  intro h
  exact absurd h.2 (by omega)

/-- C2 (amended): if the remote service returns a client- or server-error status
(400..=599) for the `n`-th document after the earlier documents succeeded, the whole
`embed` call fails immediately with that status error: no embedding list is returned,
and the trace shows exactly one request per document up to and including `n` — no
request for any later document and no retry. -/
theorem embed_fails_on_error_status (p : OpenAIEmbeddings) (svc : Service)
    (docs : List String) (n : Nat) (hn : n < docs.length) (st : Nat) (body : Option Json)
    (hprev : ∀ i (hi : i < n), p.callGoodNonempty svc i (docs.get ⟨i, Nat.lt_trans hi hn⟩))
    (hresp : p.respOf svc n (docs.get ⟨n, hn⟩) = SendResult.resp st body)
    (hst : 400 ≤ st ∧ st ≤ 599) :
    p.embed svc docs =
      (RunResult.err (EmbedError.status p.config.api_endpoint st),
        (docs.take (n + 1)).map p.sentFor) := by
  have hfail := callOutcome_status p svc n (docs.get ⟨n, hn⟩) st body hresp hst
  have hfail0 : p.callOutcome svc (0 + n) (docs.get ⟨n, hn⟩) =
      RunResult.err (EmbedError.status p.config.api_endpoint st) := by
    rw [Nat.zero_add]
    exact hfail
  have hprev0 : ∀ i (hi : i < n),
      p.callGoodNonempty svc (0 + i) (docs.get ⟨i, Nat.lt_trans hi hn⟩) := by
    intro i hi
    rw [Nat.zero_add]
    exact hprev i hi
  exact embedGo_err_at p svc docs 0 n hn _ hprev0 hfail0

/-- Witness for the amended C2: two documents, the first call succeeding and the second
answering HTTP 500. -/
theorem embed_fails_on_error_status_witness :
    p0.embed svcFailAt1 ["a", "b"] =
      (RunResult.err (EmbedError.status p0.config.api_endpoint 500),
        ((["a", "b"] : List String).take 2).map p0.sentFor) :=
  embed_fails_on_error_status p0 svcFailAt1 ["a", "b"] 1 (by decide) 500 none
    (fun i hi => by
      have h0 : i = 0 := by omega
      subst h0
      exact ⟨200, goodBody, ⟨[⟨[1, 2]⟩]⟩, rfl, by omega, rfl, by simp⟩)
    rfl ⟨by omega, by omega⟩

/-- C3: the extraction `body.data[0]` in `embed` is an unguarded index into a
possibly-empty sequence.  First conjunct: `embed` never panics provided every parsed
response has a non-empty `data` (the precondition under which it is total).  Second
conjunct: the precondition is necessary — whenever the first anomaly of a run is a
successfully parsed response with empty `data`, `embed` panics with the out-of-bounds
message instead of returning an error. -/
theorem embed_unguarded_first_entry (p : OpenAIEmbeddings) (svc : Service)
    (docs : List String) :
    ((∀ i (hi : i < docs.length) r,
        p.parsedOf svc i (docs.get ⟨i, hi⟩) = some r → r.data ≠ []) →
      ∀ m, (p.embed svc docs).1 ≠ RunResult.panic m) ∧
    (∀ n (hn : n < docs.length) r,
      (∀ i (hi : i < n), p.callGoodNonempty svc i (docs.get ⟨i, Nat.lt_trans hi hn⟩)) →
      p.parsedOf svc n (docs.get ⟨n, hn⟩) = some r → r.data = [] →
      (p.embed svc docs).1 = RunResult.panic oobMsg) := by
  constructor
  · intro hpre m hpanic
    cases hx : p.embedGo svc 0 docs with
    | mk res tr =>
      have hp2 : (p.embedGo svc 0 docs).1 = RunResult.panic m := hpanic
      rw [hx] at hp2
      dsimp only at hp2
      subst hp2
      obtain ⟨hmsg, i, hi, r, hr, hd⟩ := embedGo_panic_source p svc docs 0 m tr hx
      rw [Nat.zero_add] at hr
      exact hpre i hi r hr hd
  · intro n hn r hprev hr hd
    have hfail := callOutcome_of_parsed_nil p svc n (docs.get ⟨n, hn⟩) r hr hd
    have hfail0 : p.callOutcome svc (0 + n) (docs.get ⟨n, hn⟩) =
        RunResult.panic oobMsg := by
      rw [Nat.zero_add]
      exact hfail
    have hprev0 : ∀ i (hi : i < n),
        p.callGoodNonempty svc (0 + i) (docs.get ⟨i, Nat.lt_trans hi hn⟩) := by
      intro i hi
      rw [Nat.zero_add]
      exact hprev i hi
    have hfull := embedGo_panic_at p svc docs 0 n hn oobMsg hprev0 hfail0
    show (p.embedGo svc 0 docs).1 = RunResult.panic oobMsg
    rw [hfull]

/-- Witness for C3: a single document whose 200 response parses to an empty `data`
sequence makes `embed` panic. -/
theorem embed_unguarded_first_entry_witness :
    (p0.embed svcEmptyData ["a"]).1 = RunResult.panic oobMsg :=
  (embed_unguarded_first_entry p0 svcEmptyData ["a"]).2 0 (by decide) ⟨[]⟩
    (fun i hi => absurd hi (by omega)) rfl rfl

/-- C4: when the first anomaly of a run is a successful HTTP response whose body does not
parse into the expected shape (e.g. a `data` entry missing its `embedding` field),
`embed` returns the `serde_json` shape error — it does not crash — and that error is
distinguishable by the caller from a service (status) error and from a transport
error. -/
theorem embed_shape_error_distinguishable (p : OpenAIEmbeddings) (svc : Service)
    (docs : List String) (n : Nat) (hn : n < docs.length) (st : Nat) (j : Json)
    (msg : String)
    (hprev : ∀ i (hi : i < n), p.callGoodNonempty svc i (docs.get ⟨i, Nat.lt_trans hi hn⟩))
    (hresp : p.respOf svc n (docs.get ⟨n, hn⟩) = SendResult.resp st (some j))
    (hst : ¬(400 ≤ st ∧ st ≤ 599))
    (hparse : parseEmbeddingResponse j = Except.error msg) :
    (p.embed svc docs).1 = RunResult.err (EmbedError.parse msg) ∧
    (∀ m, (p.embed svc docs).1 ≠ RunResult.panic m) ∧
    (∀ u c, EmbedError.parse msg ≠ EmbedError.status u c) ∧
    (∀ m2, EmbedError.parse msg ≠ EmbedError.transport m2) := by
  have hfail := callOutcome_parse_err p svc n (docs.get ⟨n, hn⟩) st j msg hresp hst hparse
  have hfail0 : p.callOutcome svc (0 + n) (docs.get ⟨n, hn⟩) =
      RunResult.err (EmbedError.parse msg) := by
    rw [Nat.zero_add]
    exact hfail
  have hprev0 : ∀ i (hi : i < n),
      p.callGoodNonempty svc (0 + i) (docs.get ⟨i, Nat.lt_trans hi hn⟩) := by
    intro i hi
    rw [Nat.zero_add]
    exact hprev i hi
  have hfull := embedGo_err_at p svc docs 0 n hn _ hprev0 hfail0
  have h1 : (p.embed svc docs).1 = RunResult.err (EmbedError.parse msg) := by
    show (p.embedGo svc 0 docs).1 = _
    rw [hfull]
  refine ⟨h1, ?_, by simp, by simp⟩
  intro m
  rw [h1]
  simp

/-- Witness for C4: a 200 response whose sole `data` entry has no `embedding` field. -/
theorem embed_shape_error_distinguishable_witness :
    (p0.embed svcNoField ["a"]).1 =
      RunResult.err (EmbedError.parse "missing field embedding") ∧
    (∀ m, (p0.embed svcNoField ["a"]).1 ≠ RunResult.panic m) ∧
    (∀ u c, EmbedError.parse "missing field embedding" ≠ EmbedError.status u c) ∧
    (∀ m2, EmbedError.parse "missing field embedding" ≠ EmbedError.transport m2) :=
  embed_shape_error_distinguishable p0 svcNoField ["a"] 0 (by decide) 200
    noEmbeddingFieldBody "missing field embedding" (fun i hi => absurd hi (by omega))
    rfl (by omega) rfl

/-- C6: every request `embed` sends is a POST to the configured endpoint whose header
list is exactly `Content-Type: application/json` and `Authorization: Bearer <api_key>`,
and whose body is exactly the serialized JSON object
`{ "model": <config.model>, "input": <the document text> }` for one of the input
documents — the raw body installed earlier in the builder chain is overwritten by
`.json(..)`, so nothing else is in the body. -/
theorem embed_request_shape (p : OpenAIEmbeddings) (svc : Service) (docs : List String)
    (sent : RequestBuilder) (hmem : sent ∈ (p.embed svc docs).2) :
    ∃ doc, doc ∈ docs ∧
      sent.url = p.config.api_endpoint ∧
      sent.headers = [("Content-Type", "application/json"),
                      ("Authorization", "Bearer " ++ p.config.api_key)] ∧
      sent.body = some (Body.jsonBody
        (Json.obj [("model", Json.str p.config.model), ("input", Json.str doc)])) := by
  have htr := embedGo_trace_take p svc docs 0
  have hmem2 : sent ∈ (p.embedGo svc 0 docs).2 := hmem
  rw [htr] at hmem2
  obtain ⟨doc, hdoc, hsent⟩ := List.mem_map.mp hmem2
  refine ⟨doc, List.take_subset _ _ hdoc, ?_, ?_, ?_⟩ <;> rw [← hsent] <;> rfl

/-- Witness for C6: the request sent for the single document of a successful run. -/
theorem embed_request_shape_witness :
    ∃ doc, doc ∈ (["a"] : List String) ∧
      (p0.sentFor "a").url = p0.config.api_endpoint ∧
      (p0.sentFor "a").headers = [("Content-Type", "application/json"),
                      ("Authorization", "Bearer " ++ p0.config.api_key)] ∧
      (p0.sentFor "a").body = some (Body.jsonBody
        (Json.obj [("model", Json.str p0.config.model), ("input", Json.str doc)])) :=
  embed_request_shape p0 svcGood ["a"] (p0.sentFor "a") (List.mem_singleton.mpr rfl)

/-- Counterexample to C8 as stated: two runs over the same two documents, one failing at
document index 0 and one failing at document index 1 (the traces have lengths 1 and 2
respectively), return the very same error value — the failure carries the underlying
cause but no document index, so the caller cannot identify the failing document from
it. -/
theorem embed_error_lacks_index :
    (p0.embed svcFailAt0 ["a", "b"]).1 = (p0.embed svcFailAt1 ["a", "b"]).1 ∧
    (p0.embed svcFailAt0 ["a", "b"]).1 =
      RunResult.err (EmbedError.status OPENAI_EMBEDDINGS_ENDPOINT 500) ∧
    (p0.embed svcFailAt0 ["a", "b"]).2.length = 1 ∧
    (p0.embed svcFailAt1 ["a", "b"]).2.length = 2 :=
  ⟨rfl, rfl, rfl, rfl⟩

/-- C8 (amended): a failing `embed` call returns to the caller exactly the underlying
error of the first failed document — the transport message, the endpoint and status
code, or the parse message — but not the index of that document: error values carry no
index, and runs failing at different indices can return equal errors. -/
theorem embed_error_first_cause (p : OpenAIEmbeddings) (svc : Service)
    (docs : List String) (n : Nat) (hn : n < docs.length) (e : EmbedError)
    (hprev : ∀ i (hi : i < n), p.callGoodNonempty svc i (docs.get ⟨i, Nat.lt_trans hi hn⟩))
    (hfail : p.callOutcome svc n (docs.get ⟨n, hn⟩) = RunResult.err e) :
    (p.embed svc docs).1 = RunResult.err e := by
  have hfail0 : p.callOutcome svc (0 + n) (docs.get ⟨n, hn⟩) = RunResult.err e := by
    rw [Nat.zero_add]
    exact hfail
  have hprev0 : ∀ i (hi : i < n),
      p.callGoodNonempty svc (0 + i) (docs.get ⟨i, Nat.lt_trans hi hn⟩) := by
    intro i hi
    rw [Nat.zero_add]
    exact hprev i hi
  have hfull := embedGo_err_at p svc docs 0 n hn e hprev0 hfail0
  show (p.embedGo svc 0 docs).1 = RunResult.err e
  rw [hfull]

/-- Witness for the amended C8: a run failing at its first document returns the status
error of that call. -/
theorem embed_error_first_cause_witness :
    (p0.embed svcFailAt0 ["a"]).1 =
      RunResult.err (EmbedError.status OPENAI_EMBEDDINGS_ENDPOINT 500) :=
  embed_error_first_cause p0 svcFailAt0 ["a"] 0 (by decide)
    (EmbedError.status OPENAI_EMBEDDINGS_ENDPOINT 500)
    (fun i hi => absurd hi (by omega)) rfl

/-- C9: `embed` issues exactly one request per document it processes — the trace is
always the per-document requests of a prefix of the input list, in input order (no
retry, no caching, no batching of several documents into one request) — and when every
call succeeds it is exactly one request per input document. -/
theorem embed_one_request_per_document (p : OpenAIEmbeddings) (svc : Service)
    (docs : List String) :
    (p.embed svc docs).2 =
      (docs.take (p.embed svc docs).2.length).map p.sentFor ∧
    ((∀ i (hi : i < docs.length), p.callGoodNonempty svc i (docs.get ⟨i, hi⟩)) →
      (p.embed svc docs).2 = docs.map p.sentFor) := by
  constructor
  · exact embedGo_trace_take p svc docs 0
  · intro h
    obtain ⟨L, hL, _, _⟩ := embedGo_all_good p svc docs 0 (fun i hi => by
      rw [Nat.zero_add]
      exact h i hi)
    show (p.embedGo svc 0 docs).2 = docs.map p.sentFor
    rw [hL]

/-- Witness for C9: a successful two-document run sends exactly the two per-document
requests. -/
theorem embed_one_request_per_document_witness :
    (p0.embed svcGood ["a", "b"]).2 = (["a", "b"] : List String).map p0.sentFor :=
  (embed_one_request_per_document p0 svcGood ["a", "b"]).2 (fun i hi =>
    ⟨200, goodBody, ⟨[⟨[1, 2]⟩]⟩, rfl, by omega, rfl, by simp⟩)
